import Mathlib

/-!
# Verification of tgc-dl: manifest resolution and download orchestration

Shallow embedding of the core workflow of the `tgc_dl` package:

* `src/tgc_dl/download.py` — the `download` per-lecture loop (manifest fetch,
  rendition selection, idempotence check), `download_lecture` (direct-merge
  ffmpeg strategy with the exit-code-183 fallback to the fragmented yt-dlp
  strategy), and `download_guidebook`;
* `src/tgc_dl/types.py` — `Course._clean_filename` and the
  `Course.__init__` guidebook-URL extraction, plus the `Video` record.

Python strings are modelled as `String` (or `List Char` for the character-level
filename cleaning), machine integers as `Int` (Python ints are unbounded),
fallible paths as `Except`, and the observable behaviour of the orchestration
(network fetches, strategy invocations, log lines) as explicit effect traces.
-/

deriving instance DecidableEq for Except

namespace TgcDl

/-- Python `str.removesuffix`: drop `suf` from the end of `s` when `s` ends
with `suf`, otherwise return `s` unchanged. -/
def pyRemovesuffix (s suf : String) : String :=
  if List.isSuffixOf suf.data s.data then
    String.mk (s.data.take (s.data.length - suf.data.length))
  else s

/-- Python `str.startswith`. -/
def pyStartswith (s pre : String) : Bool :=
  List.isPrefixOf pre.data s.data

/-- Python `str.endswith`. -/
def pyEndswith (s suf : String) : Bool :=
  List.isSuffixOf suf.data s.data

/-- Python `str.split` with a single-character separator. -/
def pySplit (sep : Char) : List Char → List (List Char)
  | [] => [[]]
  | c :: rest =>
    let r := pySplit sep rest
    if c = sep then [] :: r
    else
      match r with
      | h :: t => (c :: h) :: t
      | [] => [[c]]

/-- Numeric value of a digit string. -/
def digitsVal (l : List Char) : Nat :=
  l.foldl (fun n c => 10 * n + (c.toNat - '0'.toNat)) 0

/-- One-or-more decimal digits, else `none`. -/
def pyIntDigits (l : List Char) : Option Int :=
  if l.isEmpty || !(l.all Char.isDigit) then none
  else some (digitsVal l)

/-- Python `int(...)` on the strings that occur here: an optional `-` sign
followed by one or more digits; `none` models the `ValueError` raised on
anything else. -/
def pyInt : List Char → Option Int
  | '-' :: rest => (pyIntDigits rest).map (fun n => -n)
  | l => pyIntDigits l

/-- Substring test on character lists. -/
def listContains (needle : List Char) : List Char → Bool
  | [] => needle.isEmpty
  | c :: rest => List.isPrefixOf needle (c :: rest) || listContains needle rest

/-- Python `needle in hay` for strings. -/
def pyInStr (needle hay : String) : Bool :=
  listContains needle.data hay.data

/-! ## Parsed m3u8 manifest data

`m3u8.parse` returns a dict with a `"playlists"` list (each entry optionally
carrying `"stream_info"`, which optionally carries a `"resolution"` string,
plus a relative `"uri"`) and a `"media"` list (each entry carrying a `"type"`
tag, a channel count and a relative `"uri"`).  The spec (§6) fixes this
boundary: variant entries have a resolution string and a relative URI; media
entries have a type tag, channel count and relative URI. -/

structure StreamInfo where
  resolution : Option String
deriving DecidableEq, Repr

structure PlaylistEntry where
  stream_info : Option StreamInfo
  uri : String
deriving DecidableEq, Repr

structure MediaEntry where
  type : String
  channels : Int
  uri : String
deriving DecidableEq, Repr

structure FetchResponse where
  /-- `response.url`: the final URL after any redirects. -/
  finalUrl : String
  playlists : List PlaylistEntry
  media : List MediaEntry
deriving DecidableEq, Repr

/-- `types.py` `Video` dataclass. -/
structure Video where
  video_height : Int := 0
  url_video : Option String := none
  url_audio : Option String := none
  audio_channels : Option Int := none
deriving DecidableEq, Repr

/-- `int(resolution.split("x")[1])` from `download.py` line 128: split the
resolution string on `"x"` and parse the second component; `none` models the
`IndexError`/`ValueError` the Python expression raises on malformed input. -/
def parseHeight (resolution : String) : Option Int :=
  match (pySplit 'x' resolution.data).get? 1 with
  | some s => pyInt s
  | none => none

/-- Errors raised (uncaught) by the rendition-selection part of `download`. -/
inductive ResolveErr
  | resolutionParse
  | moreThanOneAudioLink
  | noAudioLinks
deriving DecidableEq, Repr

/-- One iteration of the video-selection loop, `download.py` lines 120-133:
only a playlist with `stream_info` containing a `resolution` key is
considered; its height replaces the running selection only when strictly
greater than `video_height`. -/
def select_video_step (lecture_uri : String) (v : Video) (p : PlaylistEntry) :
    Except ResolveErr Video :=
  match p.stream_info with
  | none => .ok v
  | some si =>
    match si.resolution with
    | none => .ok v
    | some res =>
      let video_url := lecture_uri ++ p.uri
      match parseHeight res with
      | none => .error .resolutionParse
      | some h =>
        if v.video_height < h then
          .ok { v with video_height := h, url_video := some video_url }
        else
          .ok v

/-- The video-selection loop over all playlists (`download.py` lines 120-133). -/
def select_video (lecture_uri : String) (v : Video) :
    List PlaylistEntry → Except ResolveErr Video
  | [] => .ok v
  | p :: ps =>
    match select_video_step lecture_uri v p with
    | .error e => .error e
    | .ok v2 => select_video lecture_uri v2 ps

/-- Audio selection, `download.py` lines 135-151: filter media entries of type
`"AUDIO"`; exactly one must exist, two-or-more raises
`MoreThanOneAudioLinkError`, zero raises `NoAudioLinksError`. -/
def select_audio (lecture_uri : String) (v : Video) (media : List MediaEntry) :
    Except ResolveErr Video :=
  match media.filter (fun m => m.type = "AUDIO") with
  | [a] =>
    .ok { v with url_audio := some (lecture_uri ++ a.uri),
                 audio_channels := some a.channels }
  | _ :: _ :: _ => .error .moreThanOneAudioLink
  | [] => .error .noAudioLinks

/-- The rendition-selection portion of `download` (`download.py` lines
117-151).  `quality` mirrors the `quality: int` parameter of `download`
(`download.py` line 30); the selection logic never consults it. -/
def resolveRenditions (quality : Int) (lecture_uri : String)
    (playlists : List PlaylistEntry) (media : List MediaEntry) :
    Except ResolveErr Video :=
  match select_video lecture_uri {} playlists with
  | .error e => .error e
  | .ok v => select_audio lecture_uri v media

/-! ## Observable effects of the orchestration -/

/-- The two download strategies of the spec (§4.2): the direct-merge ffmpeg
invocation and the fragmented-fetch yt-dlp invocation. -/
inductive Strategy
  | directMerge
  | fragmentedFetch
deriving DecidableEq, Repr

inductive Effect
  | netFetch (url : String)
  | invoke (s : Strategy)
  | logInfo (msg : String)
  | logError (msg : String)
  | logWarning (msg : String)
deriving DecidableEq, Repr

/-- Network activity: HTTP fetches and strategy invocations (both strategies
read the rendition URLs over the network); log lines are not network. -/
def isNetworkEffect : Effect → Bool
  | .netFetch _ => true
  | .invoke _ => true
  | _ => false

/-! ## `download_lecture` (`download.py` lines 410-841)

Only the control flow that decides which strategy runs, how exit codes are
classified and what is logged is modelled; the external processes themselves
are environment inputs (`ffmpegExit` is the direct-merge process exit status,
`ytdlpOk` whether the yt-dlp download raises `DownloadError`). -/

structure MergeEnv where
  ffmpegExit : Int
  ytdlpOk : Bool
deriving DecidableEq, Repr

inductive DLResult
  | ok
  /-- a raised `RuntimeError` -/
  | raised (msg : String)
  /-- the bare `exit()` call on `download.py` line 587 -/
  | programExit
deriving DecidableEq, Repr

/-- The `use_ffmpeg=False` branch of `download_lecture` (`download.py` lines
599-841): invoke yt-dlp on the two rendition URLs; a `DownloadError` is
re-raised as `RuntimeError`. -/
def download_lecture_ytdlp (env : MergeEnv) : List Effect × DLResult :=
  if env.ytdlpOk then
    ([Effect.invoke .fragmentedFetch, Effect.logInfo "downloaded."], .ok)
  else
    ([Effect.invoke .fragmentedFetch, Effect.logError "YT-DLP download failed"],
     .raised "YT-DLP download failed")

/-- `download_lecture` (`download.py` lines 410-841).  With
`use_ffmpeg=True` the direct-merge ffmpeg process runs; exit code 0 succeeds,
the sentinel 183 logs the failure, logs the retry and re-enters with
`use_ffmpeg=False` followed by `exit()` (lines 573-587), and any other
non-zero exit raises `RuntimeError` (lines 588-591). -/
def download_lecture (env : MergeEnv) (use_ffmpeg : Bool) :
    List Effect × DLResult :=
  if use_ffmpeg then
    if env.ffmpegExit = 0 then
      ([Effect.invoke .directMerge], .ok)
    else if env.ffmpegExit = 183 then
      let retry := download_lecture_ytdlp env
      (Effect.invoke .directMerge ::
         Effect.logError "FFMPEG failed with exit code 183." ::
         Effect.logInfo "Trying with YT-DLP instead." :: retry.1,
       match retry.2 with
       | .ok => .programExit
       | r => r)
    else
      ([Effect.invoke .directMerge,
        Effect.logError ("FFMPEG failed with exit code " ++ toString env.ffmpegExit ++ ".")],
       .raised ("FFMPEG failed with exit code " ++ toString env.ffmpegExit))
  else
    download_lecture_ytdlp env

/-! ## The per-lecture loop of `download` (`download.py` lines 60-181) -/

/-- Environment for one iteration of the lecture loop: the filesystem facts
consulted by `is_lecture_downloaded` (lines 61-65, 219-229), the lecture's
`manifest_url`, and the network's answer to the manifest fetch (`none` models
a `RequestException`/parse failure caught on lines 100-109). -/
structure LectureEnv where
  existsMkv : Bool
  existsMp4 : Bool
  manifest_url : Option String
  fetchResult : Option FetchResponse
  ytdlpOk : Bool
deriving DecidableEq, Repr

inductive PyErr
  | resolveError (e : ResolveErr)
  | runtimeError (msg : String)
deriving DecidableEq, Repr

inductive StepOutcome
  | skipped
  | completed
  | raised (e : PyErr)
  | exited
deriving DecidableEq, Repr

/-- One iteration of the `for lecture in lectures_to_download` loop
(`download.py` lines 60-181), as (outcome, effect trace):

1. the `is_lecture_downloaded` check for `mkv` and `mp4` (lines 61-69) runs
   before anything else and skips with a log line;
2. a missing `manifest_url` skips (lines 76-80);
3. the manifest fetch (lines 87-97); a caught network error skips
   (lines 100-109); on success `lecture_uri` is the final response URL with
   the `"master.m3u8"` suffix removed (line 97);
4. rendition selection (lines 117-151) — its exceptions are raised outside
   the `try` block, hence uncaught;
5. a missing video/audio link skips with a warning (lines 154-163);
6. otherwise `download_lecture(..., use_ffmpeg=False)` runs (lines 165-173). -/
def process_lecture (quality : Int) (env : LectureEnv) :
    StepOutcome × List Effect :=
  if env.existsMkv || env.existsMp4 then
    (.skipped, [Effect.logInfo "already downloaded. Skipping."])
  else
    match env.manifest_url with
    | none => (.skipped, [Effect.logError "manifest URL is missing."])
    | some url =>
      match env.fetchResult with
      | none =>
        (.skipped, [Effect.netFetch url, Effect.logError "Network or HTTP error"])
      | some resp =>
        let lecture_uri := pyRemovesuffix resp.finalUrl "master.m3u8"
        match resolveRenditions quality lecture_uri resp.playlists resp.media with
        | .error e => (.raised (.resolveError e), [Effect.netFetch url])
        | .ok selected =>
          match selected.url_video with
          | none =>
            (.skipped, [Effect.netFetch url, Effect.logWarning "No video link found"])
          | some _ =>
            match selected.url_audio with
            | none =>
              (.skipped, [Effect.netFetch url, Effect.logWarning "No audio link found"])
            | some _ =>
              let dl := download_lecture { ffmpegExit := 0, ytdlpOk := env.ytdlpOk } false
              (match dl.2 with
               | .ok => .completed
               | .raised m => .raised (.runtimeError m)
               | .programExit => .exited,
               Effect.netFetch url :: dl.1)

/-- The lecture loop itself: outcomes of the processed lectures, and the
uncaught exception (if any) that aborted it.  A `continue` moves to the next
lecture; a raised exception propagates out of `download` (the `raise` on
lines 146-151 and the `RuntimeError` on line 827 are not caught by any
enclosing handler in `download` or `main`). -/
def download_loop (quality : Int) :
    List LectureEnv → List StepOutcome × Option PyErr
  | [] => ([], none)
  | env :: rest =>
    match (process_lecture quality env).1 with
    | .raised e => ([.raised e], some e)
    | .exited => ([.exited], none)
    | o =>
      let r := download_loop quality rest
      (o :: r.1, r.2)

/-! ## `Course._clean_filename` (`types.py` lines 227-265)

Modelled at character level (`List Char`, matching Python's `str` as a
sequence of code points). -/

/-- The character class `[/\\%;*|"<>]` of the first `re.sub` (line 250). -/
def isInvalidFilenameChar (c : Char) : Bool :=
  c = '/' || c = '\\' || c = '%' || c = ';' || c = '*' ||
  c = '|' || c = '"' || c = '<' || c = '>'

/-- `re.sub(r'[/\\%;*|"<>]', "_", filename)`: a character-class substitution
is a pointwise map. -/
def sub_invalid (l : List Char) : List Char :=
  l.map (fun c => if isInvalidFilenameChar c then '_' else c)

/-- Python's `\w`: alphanumeric or underscore. -/
def isWordChar (c : Char) : Bool := c.isAlphanum || c = '_'

/-- `re.sub(r"(\w)\: (\S)", r"\1 - \2", ...)` (line 255): left-to-right
non-overlapping scan; a match consumes word-char, colon, space, non-space and
emits the word-char, `" - "`, and the non-space char.  When the four-character
shape is present but the word-char/non-space guard fails, the scan resumes at
the next position; since the pattern must begin with `\w` and neither `':'`
nor `' '` is a word character, no match can start at the following two
positions either, so the scan equivalently resumes at the fourth character. -/
def sub_colon_space : List Char → List Char
  | a :: ':' :: ' ' :: b :: rest2 =>
    if isWordChar a && !b.isWhitespace then
      a :: ' ' :: '-' :: ' ' :: b :: sub_colon_space rest2
    else
      a :: ':' :: ' ' :: sub_colon_space (b :: rest2)
  | a :: rest => a :: sub_colon_space rest
  | [] => []

/-- Python `str.replace` for single-character needles. -/
def pyReplace (l : List Char) (old new : Char) : List Char :=
  l.map (fun c => if c = old then new else c)

/-- `Course._clean_filename` (`types.py` lines 227-265).  Raises `ValueError`
when both colon options are set (lines 245-248); otherwise substitutes the
invalid-character class with `_`, then either replaces `:` with `_`
(underscores option, line 252) or applies the `(\w)\: (\S)` substitution
followed by replacing `:` with `-` (lines 255-256), and finally truncates to
255 characters (line 265). -/
def clean_filename (filename : List Char)
    (replace_colons_as_underscores : Bool)
    (replace_colons_as_dashes : Bool) : Except String (List Char) :=
  if replace_colons_as_underscores && replace_colons_as_dashes then
    .error "Only one of the two colon-replacement options can be provided."
  else
    let filename_cleaned := sub_invalid filename
    let filename_cleaned :=
      if replace_colons_as_underscores then
        pyReplace filename_cleaned ':' '_'
      else
        pyReplace (sub_colon_space filename_cleaned) ':' '-'
    .ok (filename_cleaned.take 255)

/-! ## Guidebook URL (`types.py` lines 93-104, `download.py` lines 232-371) -/

/-- The guidebook anchor found by `soup.find("a", class_="guidebook-btn")`:
its `get_text()` and its `href` attribute (`tag.get("href")` is `None` when
the attribute is absent). -/
structure GuidebookTag where
  text : String
  href : Option String
deriving DecidableEq, Repr

/-- Python `str(x)` for `x : Optional[str]`: `str(None)` is the literal
string `"None"`. -/
def pyStrOfOptionStr : Option String → String
  | none => "None"
  | some s => s

/-- Python `"Guidebook" in t`. -/
def containsGuidebook (t : String) : Bool :=
  pyInStr "Guidebook" t

/-- The `Course.__init__` guidebook extraction (`types.py` lines 93-104):
when an anchor exists and its text contains `"Guidebook"`, take its `href`;
otherwise `None`; then `self.guidebook_url = str(guidebook_tag)`. -/
def course_guidebook_url (tag : Option GuidebookTag) : String :=
  match tag with
  | some t =>
    if containsGuidebook t.text then pyStrOfOptionStr t.href else "None"
  | none => "None"

/-- Where `download_guidebook` returned. -/
inductive GbStep
  /-- the `if not guidebook_url` falsiness branch (`download.py` lines 260-264) -/
  | skippedNoUrl
  /-- the `output_file.exists()` branch (lines 272-274) -/
  | skippedExists
  /-- the URL-prefix validation (lines 306-315) -/
  | skippedBadPrefix
  /-- the `re.search` validation (lines 316-322) -/
  | skippedNoRegexMatch
  /-- the `requests.get` download of the rebuilt URL (lines 325-342) -/
  | fetched (url : String)
deriving DecidableEq, Repr

def gb_url_start : String :=
  "https://www.thegreatcoursesplus.com/pdf/index/index/docName/"

/-- Longest run of non-`'.'` characters at the head, with the remainder. -/
def scanNonDotRun : List Char → List Char × List Char
  | [] => ([], [])
  | c :: rest =>
    if c = '.' then ([], c :: rest)
    else
      let r := scanNonDotRun rest
      (c :: r.1, r.2)

/-- Case-insensitive check that `l` begins with `".pdf/"`. -/
def startsWithDotPdfSlash : List Char → Bool
  | '.' :: p :: d :: f :: '/' :: _ =>
    p.toLower = 'p' && d.toLower = 'd' && f.toLower = 'f'
  | _ => false

/-- `re.search(r"/(?P<id>[^\.]+)\.pdf/", url, flags=re.IGNORECASE)`
(`download.py` line 317), returning `group(1)`: the leftmost `'/'` followed by
a non-empty run of non-dot characters and `".pdf/"` (case-insensitive).
Because `[^\.]+` cannot match a dot, the greedy run up to the next dot is the
only candidate at each start position. -/
def find_guidebook_id : List Char → Option (List Char)
  | [] => none
  | '/' :: rest =>
    let r := scanNonDotRun rest
    if 1 ≤ r.1.length && startsWithDotPdfSlash r.2 then some r.1
    else find_guidebook_id rest
  | _ :: rest => find_guidebook_id rest

/-- `download_guidebook` (`download.py` lines 232-371), up to the point where
network traffic for the guidebook itself would start.  The effect trace shows
that no branch before `fetched` touches the network. -/
def download_guidebook (guidebook_url : String) (output_file_exists : Bool) :
    GbStep × List Effect :=
  if guidebook_url.length = 0 then
    (.skippedNoUrl, [Effect.logWarning "No Guidebook URL found for this course. Skipping Guidebook download."])
  else if output_file_exists then
    (.skippedExists, [Effect.logInfo "Guidebook PDF already downloaded. Skipping."])
  else if !(pyStartswith guidebook_url gb_url_start && pyEndswith guidebook_url "/") then
    (.skippedBadPrefix, [Effect.logWarning "No Guidebook URL found for this course. Skipping Guidebook download."])
  else
    match find_guidebook_id guidebook_url.data with
    | none =>
      (.skippedNoRegexMatch, [Effect.logWarning "No Guidebook URL found for this course. Skipping Guidebook download."])
    | some gid =>
      let rebuilt :=
        "https://secureimages.teach12.com/CourseGuideBooks/" ++ String.mk gid ++ ".pdf"
      (.fetched rebuilt, [Effect.netFetch rebuilt])

/-- The error `download` raises for an audio-track count different from one
(`download.py` lines 146-151). -/
def audioErr (n : Nat) : ResolveErr :=
  if 2 ≤ n then .moreThanOneAudioLink else .noAudioLinks

/-! ## Concrete environments used by counterexamples and witnesses -/

def resp_two_audio : FetchResponse :=
  { finalUrl := "https://cdn.example/lec1/master.m3u8",
    playlists := [⟨some ⟨some "854x480"⟩, "480p.m3u8"⟩],
    media := [⟨"AUDIO", 2, "a1.m3u8"⟩, ⟨"AUDIO", 2, "a2.m3u8"⟩] }

def resp_good : FetchResponse :=
  { finalUrl := "https://cdn.example/lec2/master.m3u8",
    playlists := [⟨some ⟨some "854x480"⟩, "480p.m3u8"⟩,
                  ⟨some ⟨some "1920x1080"⟩, "1080p.m3u8"⟩],
    media := [⟨"AUDIO", 2, "a1.m3u8"⟩] }

def env_two_audio : LectureEnv :=
  { existsMkv := false, existsMp4 := false,
    manifest_url := some "https://cdn.example/lec1/master.m3u8",
    fetchResult := some resp_two_audio, ytdlpOk := true }

def env_good : LectureEnv :=
  { existsMkv := false, existsMp4 := false,
    manifest_url := some "https://cdn.example/lec2/master.m3u8",
    fetchResult := some resp_good, ytdlpOk := true }

def env_downloaded : LectureEnv :=
  { existsMkv := true, existsMp4 := false,
    manifest_url := some "https://cdn.example/lec3/master.m3u8",
    fetchResult := some resp_good, ytdlpOk := true }

/-! ## Claim theorems -/

/-- C1 (counterexample): the claim says a two-audio manifest only skips that
lecture and processing continues with the next lecture of the same course.
On the code it is false: with a two-audio first lecture followed by a
well-formed lecture, the loop ends after the first lecture with the
`MoreThanOneAudioLinkError` exception — the outcome list has length 1, not 2,
so the second lecture is never processed, even though on its own it would
download fine. -/
theorem two_audio_manifest_aborts_following_lectures :
    (download_loop 1080 [env_two_audio, env_good]).1 =
      [StepOutcome.raised (PyErr.resolveError .moreThanOneAudioLink)] ∧
    (download_loop 1080 [env_two_audio, env_good]).2 =
      some (PyErr.resolveError .moreThanOneAudioLink) ∧
    (download_loop 1080 [env_two_audio, env_good]).1.length ≠ 2 ∧
    (download_loop 1080 [env_good]).1 = [StepOutcome.completed] := by
  decide

/-- C1 (amended): a manifest whose parsed media list contains zero or
two-or-more audio entries makes `download` raise an uncaught exception
(`MoreThanOneAudioLinkError` resp. `NoAudioLinksError`, raised outside the
`try` block of `download.py` lines 83-109): the loop aborts at that lecture
and the remaining lectures of the course are not processed. -/
theorem ambiguous_audio_raises_and_aborts_loop
    (q : Int) (env : LectureEnv) (rest : List LectureEnv)
    (resp : FetchResponse) (v : Video) (u : String)
    (h1 : env.existsMkv = false) (h2 : env.existsMp4 = false)
    (h3 : env.manifest_url = some u)
    (h4 : env.fetchResult = some resp)
    (hv : select_video (pyRemovesuffix resp.finalUrl "master.m3u8") {}
            resp.playlists = .ok v)
    (ha : (resp.media.filter (fun m => m.type = "AUDIO")).length ≠ 1) :
    download_loop q (env :: rest) =
      ([StepOutcome.raised (.resolveError
          (audioErr (resp.media.filter (fun m => m.type = "AUDIO")).length))],
       some (.resolveError
          (audioErr (resp.media.filter (fun m => m.type = "AUDIO")).length))) := by
  have hstep : (process_lecture q env).1 =
      StepOutcome.raised (.resolveError
        (audioErr (resp.media.filter (fun m => m.type = "AUDIO")).length)) := by
    rcases hfa : resp.media.filter (fun m => m.type = "AUDIO") with _ | ⟨a, _ | ⟨b, t⟩⟩
    · simp [process_lecture, h1, h2, h3, h4, resolveRenditions, hv, select_audio,
        hfa, audioErr]
    · exact absurd (by simp [hfa]) ha
    · simp [process_lecture, h1, h2, h3, h4, resolveRenditions, hv, select_audio,
        hfa, audioErr]
  simp [download_loop, hstep]

theorem ambiguous_audio_raises_and_aborts_loop_witness :
    download_loop 1080 [env_two_audio, env_good] =
      ([StepOutcome.raised (.resolveError
          (audioErr (resp_two_audio.media.filter (fun m => m.type = "AUDIO")).length))],
       some (.resolveError
          (audioErr (resp_two_audio.media.filter (fun m => m.type = "AUDIO")).length))) :=
  ambiguous_audio_raises_and_aborts_loop 1080 env_two_audio [env_good]
    resp_two_audio { video_height := 480, url_video := some "https://cdn.example/lec1/480p.m3u8" }
    "https://cdn.example/lec1/master.m3u8"
    rfl rfl rfl rfl (by decide) (by decide)

/-- C2: when the lecture's output file already exists under either accepted
container extension, the `is_lecture_downloaded` check (`download.py` lines
61-69) short-circuits the iteration before the manifest fetch: the lecture is
skipped, no network effect (fetch or strategy invocation) occurs, and no
exception is raised. -/
theorem already_downloaded_lecture_skips_before_any_network
    (q : Int) (env : LectureEnv)
    (h : env.existsMkv = true ∨ env.existsMp4 = true) :
    (process_lecture q env).1 = StepOutcome.skipped ∧
    (process_lecture q env).2.all (fun e => !isNetworkEffect e) = true := by
  have hb : (env.existsMkv || env.existsMp4) = true := by
    rcases h with h | h <;> simp [h]
  refine ⟨?_, ?_⟩ <;> simp [process_lecture, hb, isNetworkEffect]

theorem already_downloaded_lecture_skips_before_any_network_witness :
    (process_lecture 1080 env_downloaded).1 = StepOutcome.skipped ∧
    (process_lecture 1080 env_downloaded).2.all (fun e => !isNetworkEffect e) = true :=
  already_downloaded_lecture_skips_before_any_network 1080 env_downloaded (Or.inl rfl)

/-! ## Selection of the maximal-height video variant (C3) -/

/-- The height a playlist entry advertises: defined exactly when the entry
has `stream_info` with a `resolution` that parses. -/
def entryHeight (p : PlaylistEntry) : Option Int :=
  match p.stream_info with
  | none => none
  | some si =>
    match si.resolution with
    | none => none
    | some res => parseHeight res

/-- The `"stream_info" in playlist and "resolution" in playlist["stream_info"]`
test of `download.py` line 122. -/
def isVideoEntry (p : PlaylistEntry) : Bool :=
  match p.stream_info with
  | none => false
  | some si => si.resolution.isSome

/-- The running maximum the selection loop maintains over a list of entries,
starting from `h`. -/
def runningMax (h : Int) : List PlaylistEntry → Int
  | [] => h
  | p :: ps =>
    match entryHeight p with
    | some h2 => runningMax (max h h2) ps
    | none => runningMax h ps

lemma select_video_step_skip (uri : String) (v : Video) (p : PlaylistEntry)
    (hp : entryHeight p = none) (hv : isVideoEntry p = false) :
    select_video_step uri v p = .ok v := by
  rcases p with ⟨si, u2⟩
  cases si with
  | none => rfl
  | some si2 =>
    rcases si2 with ⟨r⟩
    cases r with
    | none => rfl
    | some res => simp [isVideoEntry] at hv

lemma select_video_step_take (uri : String) (v : Video) (p : PlaylistEntry)
    (h : Int) (hp : entryHeight p = some h) (hlt : v.video_height < h) :
    select_video_step uri v p =
      .ok { v with video_height := h, url_video := some (uri ++ p.uri) } := by
  rcases p with ⟨si, u2⟩
  cases si with
  | none => simp [entryHeight] at hp
  | some si2 =>
    rcases si2 with ⟨r⟩
    cases r with
    | none => simp [entryHeight] at hp
    | some res =>
      simp only [entryHeight] at hp
      simp [select_video_step, hp, hlt]

lemma select_video_step_keep (uri : String) (v : Video) (p : PlaylistEntry)
    (h : Int) (hp : entryHeight p = some h) (hlt : ¬ v.video_height < h) :
    select_video_step uri v p = .ok v := by
  rcases p with ⟨si, u2⟩
  cases si with
  | none => simp [entryHeight] at hp
  | some si2 =>
    rcases si2 with ⟨r⟩
    cases r with
    | none => simp [entryHeight] at hp
    | some res =>
      simp only [entryHeight] at hp
      simp [select_video_step, hp, hlt]

lemma select_video_cons (uri : String) (v : Video) (p : PlaylistEntry)
    (ps : List PlaylistEntry) :
    select_video uri v (p :: ps) =
      match select_video_step uri v p with
      | .error e => .error e
      | .ok v2 => select_video uri v2 ps := rfl

lemma select_video_cons_ok (uri : String) (v v2 : Video) (p : PlaylistEntry)
    (ps : List PlaylistEntry) (hstep : select_video_step uri v p = .ok v2) :
    select_video uri v (p :: ps) = select_video uri v2 ps := by
  rw [select_video_cons, hstep]

lemma runningMax_cons (h : Int) (p : PlaylistEntry) (ps : List PlaylistEntry) :
    runningMax h (p :: ps) =
      match entryHeight p with
      | some h2 => runningMax (max h h2) ps
      | none => runningMax h ps := rfl

lemma runningMax_cons_some (h h2 : Int) (p : PlaylistEntry)
    (ps : List PlaylistEntry) (hp : entryHeight p = some h2) :
    runningMax h (p :: ps) = runningMax (max h h2) ps := by
  rw [runningMax_cons, hp]

lemma runningMax_cons_none (h : Int) (p : PlaylistEntry)
    (ps : List PlaylistEntry) (hp : entryHeight p = none) :
    runningMax h (p :: ps) = runningMax h ps := by
  rw [runningMax_cons, hp]

lemma le_runningMax : ∀ (l : List PlaylistEntry) (h : Int), h ≤ runningMax h l
  | [], h => le_refl h
  | p :: ps, h => by
    rw [runningMax_cons]
    cases hp : entryHeight p with
    | none => exact le_runningMax ps h
    | some h2 => exact le_trans (le_max_left h h2) (le_runningMax ps (max h h2))

lemma height_le_runningMax {q : PlaylistEntry} {hq : Int}
    (he : entryHeight q = some hq) :
    ∀ (l : List PlaylistEntry) (h : Int), q ∈ l → hq ≤ runningMax h l := by
  intro l
  induction l with
  | nil => simp
  | cons p ps ih =>
    intro h hmem
    rw [runningMax_cons]
    rcases List.mem_cons.mp hmem with rfl | hmem2
    · rw [he]
      exact le_trans (le_max_right h hq) (le_runningMax ps (max h hq))
    · cases hp : entryHeight p with
      | none => exact ih h hmem2
      | some h2 => exact ih (max h h2) hmem2

/-- If no remaining entry strictly exceeds the running selection, the loop
leaves the selection unchanged. -/
lemma select_video_stationary (uri : String) :
    ∀ (l : List PlaylistEntry) (v : Video),
      (∀ p ∈ l, isVideoEntry p = true → (entryHeight p).isSome = true) →
      (∀ p ∈ l, ∀ h, entryHeight p = some h → h ≤ v.video_height) →
      select_video uri v l = .ok v := by
  intro l
  induction l with
  | nil => intro v _ _; rfl
  | cons p ps ih =>
    intro v hparse hle
    have tail := ih v (fun q hq => hparse q (List.mem_cons_of_mem p hq))
      (fun q hq => hle q (List.mem_cons_of_mem p hq))
    cases hp : entryHeight p with
    | none =>
      have hvid : isVideoEntry p = false := by
        by_contra hc
        have := hparse p (List.mem_cons_self p ps) (by simpa using hc)
        rw [hp] at this
        simp at this
      rw [select_video_cons_ok uri v v p ps (select_video_step_skip uri v p hp hvid)]
      exact tail
    | some h =>
      have hnot : ¬ v.video_height < h :=
        not_lt_of_le (hle p (List.mem_cons_self p ps) h hp)
      rw [select_video_cons_ok uri v v p ps (select_video_step_keep uri v p h hp hnot)]
      exact tail

/-- The core argmax property of the selection loop: when some entry strictly
exceeds the running selection height, the loop returns the running maximum as
height, and the URL of the first entry attaining it. -/
lemma select_video_first_max (uri : String) :
    ∀ (l : List PlaylistEntry) (v : Video),
      (∀ p ∈ l, isVideoEntry p = true → (entryHeight p).isSome = true) →
      v.video_height < runningMax v.video_height l →
      ∃ p₀, l.find? (fun p => decide (entryHeight p = some (runningMax v.video_height l)))
              = some p₀ ∧
        select_video uri v l =
          .ok { video_height := runningMax v.video_height l,
                url_video := some (uri ++ p₀.uri),
                url_audio := v.url_audio,
                audio_channels := v.audio_channels } := by
  intro l
  induction l with
  | nil =>
    intro v _ hM
    rw [runningMax] at hM
    exact absurd hM (lt_irrefl _)
  | cons p ps ih =>
    intro v hparse hM
    have hparse' : ∀ q ∈ ps, isVideoEntry q = true → (entryHeight q).isSome = true :=
      fun q hq => hparse q (List.mem_cons_of_mem p hq)
    cases hp : entryHeight p with
    | none =>
      have hvid : isVideoEntry p = false := by
        by_contra hc
        have := hparse p (List.mem_cons_self p ps) (by simpa using hc)
        rw [hp] at this
        simp at this
      have hMeq := runningMax_cons_none v.video_height p ps hp
      rw [hMeq] at hM ⊢
      rw [select_video_cons_ok uri v v p ps (select_video_step_skip uri v p hp hvid)]
      obtain ⟨p₀, hfind, hsel⟩ := ih v hparse' hM
      refine ⟨p₀, ?_, hsel⟩
      rw [List.find?_cons_of_neg, hfind]
      simp [hp]
    | some h =>
      by_cases hlt : v.video_height < h
      · -- the entry replaces the running selection
        have hMeq : runningMax v.video_height (p :: ps) = runningMax h ps := by
          rw [runningMax_cons_some v.video_height h p ps hp,
            max_eq_right (le_of_lt hlt)]
        rw [hMeq] at hM ⊢
        rw [select_video_cons_ok uri v _ p ps (select_video_step_take uri v p h hp hlt)]
        by_cases hM2 : h < runningMax h ps
        · -- some later entry is strictly larger still
          obtain ⟨p₀, hfind, hsel⟩ :=
            ih { v with video_height := h, url_video := some (uri ++ p.uri) } hparse'
              (by simpa using hM2)
          refine ⟨p₀, ?_, ?_⟩
          · rw [List.find?_cons_of_neg]
            · simpa using hfind
            · simp only [hp, decide_eq_true_eq, Option.some.injEq]
              intro hc
              omega
          · simpa using hsel
        · -- this entry is the maximum; everything later is ≤ it
          have hMe : runningMax h ps = h :=
            le_antisymm (not_lt.mp hM2) (le_runningMax ps h)
          have hstat : select_video uri
              { v with video_height := h, url_video := some (uri ++ p.uri) } ps =
              .ok { v with video_height := h, url_video := some (uri ++ p.uri) } := by
            apply select_video_stationary uri ps _ hparse'
            intro q hq hq2 hqe
            have := height_le_runningMax hqe ps h hq
            simpa [hMe] using this
          refine ⟨p, ?_, ?_⟩
          · rw [List.find?_cons_of_pos]
            simp [hp, hMe]
          · rw [hMe, hstat]
      · -- the entry does not replace the selection
        have hMeq : runningMax v.video_height (p :: ps) = runningMax v.video_height ps := by
          rw [runningMax_cons_some v.video_height h p ps hp,
            max_eq_left (not_lt.mp hlt)]
        rw [hMeq] at hM ⊢
        rw [select_video_cons_ok uri v v p ps (select_video_step_keep uri v p h hp hlt)]
        obtain ⟨p₀, hfind, hsel⟩ := ih v hparse' hM
        refine ⟨p₀, ?_, hsel⟩
        rw [List.find?_cons_of_neg, hfind]
        simp only [hp, decide_eq_true_eq, Option.some.injEq]
        intro hc
        have hle := not_lt.mp hlt
        omega

/-- C3: for a manifest whose video variants all have parseable positive
heights (and at least one such variant, so the maximum is positive), the
selection loop returns the maximum height `runningMax 0 playlists`, every
advertised height is bounded by it, and the selected URL is that of the
*first* entry in manifest order attaining the maximum (`List.find?`) — only a
strictly greater height replaces the running selection
(`download.py` lines 117-133). -/
theorem resolver_selects_first_maximal_height
    (uri : String) (playlists : List PlaylistEntry)
    (hp : ∀ p ∈ playlists, isVideoEntry p = true → (entryHeight p).isSome = true)
    (hpos : 0 < runningMax 0 playlists) :
    (playlists.find?
        (fun p => decide (entryHeight p = some (runningMax 0 playlists)))).isSome = true ∧
    select_video uri {} playlists =
      .ok { video_height := runningMax 0 playlists,
            url_video :=
              (playlists.find?
                  (fun p => decide (entryHeight p = some (runningMax 0 playlists)))).map
                (fun p => uri ++ p.uri) } ∧
    playlists.all (fun p =>
      match entryHeight p with
      | some h => decide (h ≤ runningMax 0 playlists)
      | none => true) = true := by
  obtain ⟨p₀, hfind, hsel⟩ :=
    select_video_first_max uri playlists {} hp (by simpa using hpos)
  have hfind0 : playlists.find?
      (fun p => decide (entryHeight p = some (runningMax 0 playlists))) = some p₀ := by
    simpa using hfind
  refine ⟨by rw [hfind0]; rfl, ?_, ?_⟩
  · rw [hfind0]
    simpa using hsel
  · rw [List.all_eq_true]
    intro p hmem
    cases hq : entryHeight p with
    | none => simp
    | some h =>
      simp only [decide_eq_true_eq]
      exact height_le_runningMax hq playlists 0 hmem

theorem resolver_selects_first_maximal_height_witness :
    (resp_good.playlists.find?
        (fun p => decide (entryHeight p = some (runningMax 0 resp_good.playlists)))).isSome = true ∧
    select_video "https://cdn.example/lec2/" {} resp_good.playlists =
      .ok { video_height := runningMax 0 resp_good.playlists,
            url_video :=
              (resp_good.playlists.find?
                  (fun p => decide (entryHeight p = some (runningMax 0 resp_good.playlists)))).map
                (fun p => "https://cdn.example/lec2/" ++ p.uri) } ∧
    resp_good.playlists.all (fun p =>
      match entryHeight p with
      | some h => decide (h ≤ runningMax 0 resp_good.playlists)
      | none => true) = true :=
  resolver_selects_first_maximal_height "https://cdn.example/lec2/"
    resp_good.playlists (by decide) (by decide)

/-- C4: whenever the direct-merge ffmpeg process exits with the sentinel code
183, `download_lecture` retries with the fragmented-fetch (yt-dlp) strategy
exactly once — the trace contains exactly one fragmented-fetch invocation and
exactly one direct-merge invocation — and the retry is observable in the logs
via the `"Trying with YT-DLP instead."` line (`download.py` lines 573-587). -/
theorem sentinel_exit_triggers_exactly_one_fragmented_retry
    (env : MergeEnv) (h : env.ffmpegExit = 183) :
    (download_lecture env true).1.count (Effect.invoke .fragmentedFetch) = 1 ∧
    (download_lecture env true).1.count (Effect.invoke .directMerge) = 1 ∧
    Effect.logInfo "Trying with YT-DLP instead." ∈ (download_lecture env true).1 := by
  obtain ⟨fe, yo⟩ := env
  replace h : fe = 183 := h
  subst h
  cases yo <;> decide

theorem sentinel_exit_triggers_exactly_one_fragmented_retry_witness :
    (download_lecture ⟨183, true⟩ true).1.count (Effect.invoke .fragmentedFetch) = 1 ∧
    (download_lecture ⟨183, true⟩ true).1.count (Effect.invoke .directMerge) = 1 ∧
    Effect.logInfo "Trying with YT-DLP instead." ∈ (download_lecture ⟨183, true⟩ true).1 :=
  sentinel_exit_triggers_exactly_one_fragmented_retry ⟨183, true⟩ rfl

/-- C5: a direct-merge process exit status that is non-zero and different
from the sentinel 183 makes `download_lecture` raise `RuntimeError`
(`download.py` lines 588-591) — the failure is escalated, not logged and
skipped, and no fragmented-fetch retry happens. -/
theorem nonsentinel_failure_raises_runtime_error
    (env : MergeEnv) (h0 : env.ffmpegExit ≠ 0) (h183 : env.ffmpegExit ≠ 183) :
    (download_lecture env true).2 =
      DLResult.raised ("FFMPEG failed with exit code " ++ toString env.ffmpegExit) ∧
    (download_lecture env true).1.all
      (fun e => decide (e ≠ Effect.invoke .fragmentedFetch)) = true := by
  simp [download_lecture, h0, h183]

theorem nonsentinel_failure_raises_runtime_error_witness :
    (download_lecture ⟨1, true⟩ true).2 =
      DLResult.raised ("FFMPEG failed with exit code " ++ toString (1 : Int)) ∧
    (download_lecture ⟨1, true⟩ true).1.all
      (fun e => decide (e ≠ Effect.invoke .fragmentedFetch)) = true :=
  nonsentinel_failure_raises_runtime_error ⟨1, true⟩ (by decide) (by decide)

/-- C9: the rendition selection of `download` (`download.py` lines 117-151)
never consults the `quality` parameter (`download.py` line 30): for any two
in-range quality values the selected video and audio renditions coincide. -/
theorem selection_independent_of_quality
    (q1 q2 : Int) (h1a : 360 ≤ q1) (h1b : q1 ≤ 1080)
    (h2a : 360 ≤ q2) (h2b : q2 ≤ 1080)
    (lecture_uri : String) (playlists : List PlaylistEntry)
    (media : List MediaEntry) :
    resolveRenditions q1 lecture_uri playlists media =
      resolveRenditions q2 lecture_uri playlists media := rfl

theorem selection_independent_of_quality_witness :
    resolveRenditions 360 "https://cdn.example/lec2/" resp_good.playlists resp_good.media =
      resolveRenditions 1080 "https://cdn.example/lec2/" resp_good.playlists resp_good.media :=
  selection_independent_of_quality 360 1080 (by decide) (by decide) (by decide) (by decide)
    "https://cdn.example/lec2/" resp_good.playlists resp_good.media

/-! ## URI resolution against the final response URL (C6) -/

lemma pyRemovesuffix_append (dir suf : String) :
    pyRemovesuffix (dir ++ suf) suf = dir := by
  have hsuf : List.isSuffixOf suf.data (dir ++ suf).data = true := by
    rw [List.isSuffixOf_iff_suffix, String.data_append]
    exact List.suffix_append _ _
  rw [pyRemovesuffix, if_pos hsuf, String.data_append, List.length_append,
    Nat.add_sub_cancel, List.take_left]

lemma select_video_step_url (uri : String) (v v1 : Video) (p : PlaylistEntry)
    (h : select_video_step uri v p = .ok v1) :
    v1.url_video = v.url_video ∨ v1.url_video = some (uri ++ p.uri) := by
  rcases p with ⟨si, u2⟩
  cases si with
  | none => cases h; exact Or.inl rfl
  | some si2 =>
    rcases si2 with ⟨r⟩
    cases r with
    | none => cases h; exact Or.inl rfl
    | some res =>
      simp only [select_video_step] at h
      cases hph : parseHeight res with
      | none => rw [hph] at h; cases h
      | some hh =>
        rw [hph] at h
        replace h : (if v.video_height < hh then
            Except.ok ({ v with video_height := hh,
                                url_video := some (uri ++ u2) } : Video)
          else Except.ok v) = Except.ok v1 := h
        by_cases hlt : v.video_height < hh
        · rw [if_pos hlt] at h
          cases h
          exact Or.inr rfl
        · rw [if_neg hlt] at h
          cases h
          exact Or.inl rfl

lemma select_video_url_provenance (uri : String) :
    ∀ (l : List PlaylistEntry) (v v2 : Video),
      select_video uri v l = .ok v2 →
      v2.url_video = v.url_video ∨
        v2.url_video ∈ l.map (fun p => some (uri ++ p.uri)) := by
  intro l
  induction l with
  | nil =>
    intro v v2 h
    cases h
    exact Or.inl rfl
  | cons p ps ih =>
    intro v v2 h
    rw [select_video_cons] at h
    cases hstep : select_video_step uri v p with
    | error e => rw [hstep] at h; cases h
    | ok v1 =>
      rw [hstep] at h
      have h' : select_video uri v1 ps = .ok v2 := h
      rcases ih v1 v2 h' with h2 | h2
      · rcases select_video_step_url uri v v1 p hstep with h3 | h3
        · exact Or.inl (h2.trans h3)
        · right
          rw [List.map_cons, h2, h3]
          exact List.mem_cons_self _ _
      · right
        rw [List.map_cons]
        exact List.mem_cons_of_mem _ h2

lemma select_audio_single (uri : String) (v : Video) (a : MediaEntry)
    (media : List MediaEntry)
    (hfa : media.filter (fun m => m.type = "AUDIO") = [a]) :
    select_audio uri v media =
      .ok { v with url_audio := some (uri ++ a.uri),
                   audio_channels := some a.channels } := by
  unfold select_audio
  rw [hfa]

lemma resolveRenditions_ok_parts (q : Int) (uri : String)
    (playlists : List PlaylistEntry) (media : List MediaEntry) (v : Video)
    (h : resolveRenditions q uri playlists media = .ok v) :
    ∃ v1, select_video uri {} playlists = .ok v1 ∧
      select_audio uri v1 media = .ok v := by
  unfold resolveRenditions at h
  cases hsv : select_video uri {} playlists with
  | error e => rw [hsv] at h; cases h
  | ok v1 =>
    rw [hsv] at h
    exact ⟨v1, rfl, h⟩

/-- C6: `download` resolves relative rendition URIs against
`lecture_manifest_response.url` — the *final*, post-redirect response URL
(`download.py` line 97) — with the trailing `"master.m3u8"` removed: the
selected audio URL is the final URL's directory joined with the media
entry's relative URI, the selected video URL (when present) is the final
URL's directory joined with some playlist entry's relative URI, and the
outcome of the lecture step does not depend on the originally requested
`manifest_url` at all. -/
theorem uris_resolve_against_final_url
    (q : Int) (env : LectureEnv) (resp : FetchResponse) (dir : String)
    (a : MediaEntry) (v : Video) (u1 u2 : String)
    (hresp : env.fetchResult = some resp)
    (hfinal : resp.finalUrl = dir ++ "master.m3u8")
    (hmedia : resp.media = [a]) (ha : a.type = "AUDIO")
    (hres : resolveRenditions q (pyRemovesuffix resp.finalUrl "master.m3u8")
              resp.playlists resp.media = .ok v) :
    v.url_audio = some (dir ++ a.uri) ∧
    (v.url_video = none ∨
      v.url_video ∈ resp.playlists.map (fun p => some (dir ++ p.uri))) ∧
    (process_lecture q { env with manifest_url := some u1 }).1 =
      (process_lecture q { env with manifest_url := some u2 }).1 := by
  have huri : pyRemovesuffix resp.finalUrl "master.m3u8" = dir := by
    rw [hfinal, pyRemovesuffix_append]
  rw [huri] at hres
  obtain ⟨v1, hsv, hsa⟩ := resolveRenditions_ok_parts _ _ _ _ _ hres
  have hfa : resp.media.filter (fun m => m.type = "AUDIO") = [a] := by
    rw [hmedia]
    simp [ha]
  rw [select_audio_single dir v1 a resp.media hfa] at hsa
  have hv : v = { v1 with url_audio := some (dir ++ a.uri),
                          audio_channels := some a.channels } := by
    cases hsa; rfl
  refine ⟨by rw [hv], ?_, ?_⟩
  · have hprov := select_video_url_provenance dir resp.playlists {} v1 hsv
    rw [hv]
    simpa using hprov
  · rcases env with ⟨mkv, mp4, mu, fr, yo⟩
    simp only [process_lecture]
    cases mkv <;> cases mp4 <;> cases fr <;>
      simp only [Bool.or_self, Bool.or_true, Bool.true_or, Bool.or_false,
        if_true, if_false, Bool.false_or]
    all_goals try rfl
    all_goals {
      rename_i r
      cases hr : resolveRenditions q (pyRemovesuffix r.finalUrl "master.m3u8")
          r.playlists r.media with
      | error e => simp [hr]
      | ok sel =>
        cases huv : sel.url_video with
        | none => simp [hr, huv]
        | some uv =>
          cases hua : sel.url_audio with
          | none => simp [hr, huv, hua]
          | some ua => simp [hr, huv, hua]
    }

theorem uris_resolve_against_final_url_witness :
    ((resolveRenditions 1080
        (pyRemovesuffix resp_good.finalUrl "master.m3u8")
        resp_good.playlists resp_good.media).toOption.map Video.url_audio)
      = some (some ("https://cdn.example/lec2/" ++ "a1.m3u8")) ∧
    (process_lecture 1080 { env_good with manifest_url := some "https://requested.example/one" }).1 =
      (process_lecture 1080 { env_good with manifest_url := some "https://requested.example/two" }).1 := by
  have h := uris_resolve_against_final_url 1080 env_good resp_good
    "https://cdn.example/lec2/" ⟨"AUDIO", 2, "a1.m3u8"⟩
    { video_height := 1080,
      url_video := some "https://cdn.example/lec2/1080p.m3u8",
      url_audio := some "https://cdn.example/lec2/a1.m3u8",
      audio_channels := some 2 }
    "https://requested.example/one" "https://requested.example/two"
    rfl rfl rfl rfl (by decide)
  exact ⟨by decide, h.2.2⟩

/-! ## Audio track title metadata (C7) -/

/-- The `-metadata:s:a:0` title directive of the direct-merge invocation,
`download.py` line 481 (the yt-dlp merge path builds the identical directive
on line 681): `"English Stereo"` when the selected audio rendition reports 2
channels, `"English Mono"` otherwise. -/
def ffmpeg_audio_title_arg (video : Video) : String :=
  "title=\"" ++
    (if video.audio_channels = some 2 then "English Stereo" else "English Mono")
    ++ "\""

/-- C7: for a lecture resolved from a manifest with a single audio entry, the
merged container's audio track descriptive title is `"English Stereo"`
exactly when that entry's channel count is 2, and the mono variant otherwise
— the title is determined by the channel count parsed from the manifest. -/
theorem audio_track_title_follows_channel_count
    (q : Int) (uri : String) (playlists : List PlaylistEntry)
    (media : List MediaEntry) (a : MediaEntry) (v : Video)
    (hmedia : media = [a]) (ha : a.type = "AUDIO")
    (hres : resolveRenditions q uri playlists media = .ok v) :
    (ffmpeg_audio_title_arg v = "title=\"English Stereo\"" ↔ a.channels = 2) ∧
    (a.channels ≠ 2 → ffmpeg_audio_title_arg v = "title=\"English Mono\"") := by
  obtain ⟨v1, hsv, hsa⟩ := resolveRenditions_ok_parts _ _ _ _ _ hres
  have hfa : media.filter (fun m => m.type = "AUDIO") = [a] := by
    rw [hmedia]
    simp [ha]
  rw [select_audio_single uri v1 a media hfa] at hsa
  have hch : v.audio_channels = some a.channels := by
    cases hsa; rfl
  constructor
  · constructor
    · intro ht
      by_contra hc
      rw [ffmpeg_audio_title_arg, hch] at ht
      rw [if_neg (by simpa using hc)] at ht
      exact absurd ht (by decide)
    · intro h2
      rw [ffmpeg_audio_title_arg, hch, h2, if_pos rfl]
      decide
  · intro hc
    rw [ffmpeg_audio_title_arg, hch, if_neg (by simpa using hc)]
    decide

theorem audio_track_title_follows_channel_count_witness :
    (ffmpeg_audio_title_arg
        { video_height := 480,
          url_video := some "https://cdn.example/lec1/480p.m3u8",
          url_audio := some "https://cdn.example/lec1/a1.m3u8",
          audio_channels := some 2 } = "title=\"English Stereo\"" ↔
      (⟨"AUDIO", 2, "a1.m3u8"⟩ : MediaEntry).channels = 2) ∧
    ((⟨"AUDIO", 2, "a1.m3u8"⟩ : MediaEntry).channels ≠ 2 →
      ffmpeg_audio_title_arg
        { video_height := 480,
          url_video := some "https://cdn.example/lec1/480p.m3u8",
          url_audio := some "https://cdn.example/lec1/a1.m3u8",
          audio_channels := some 2 } = "title=\"English Mono\"") :=
  audio_track_title_follows_channel_count 1080 "https://cdn.example/lec1/"
    [⟨some ⟨some "854x480"⟩, "480p.m3u8"⟩] [⟨"AUDIO", 2, "a1.m3u8"⟩]
    ⟨"AUDIO", 2, "a1.m3u8"⟩ _ rfl rfl (by decide)

/-! ## Filename cleaning is idempotent and bounded (C8) -/

lemma sub_invalid_no_invalid (l : List Char) :
    ∀ c ∈ sub_invalid l, isInvalidFilenameChar c = false := by
  intro c hc
  rw [sub_invalid, List.mem_map] at hc
  obtain ⟨d, _, rfl⟩ := hc
  by_cases h : isInvalidFilenameChar d
  · rw [if_pos h]
    decide
  · rw [if_neg h]
    simpa using h

lemma sub_invalid_id (l : List Char)
    (h : ∀ c ∈ l, isInvalidFilenameChar c = false) :
    sub_invalid l = l := by
  rw [sub_invalid]
  have h2 : ∀ c ∈ l, (if isInvalidFilenameChar c then '_' else c) = id c := by
    intro c hc
    simp [h c hc]
  rw [List.map_congr_left h2, List.map_id]

lemma mem_pyReplace (l : List Char) (o n : Char) :
    ∀ c ∈ pyReplace l o n, c = n ∨ (c ∈ l ∧ c ≠ o) := by
  intro c hc
  rw [pyReplace, List.mem_map] at hc
  obtain ⟨d, hd, rfl⟩ := hc
  by_cases h : d = o
  · simp [h]
  · simp only [h, if_false]
    exact Or.inr ⟨hd, h⟩

lemma pyReplace_id (l : List Char) (o n : Char) (h : ∀ c ∈ l, c ≠ o) :
    pyReplace l o n = l := by
  rw [pyReplace]
  have h2 : ∀ c ∈ l, (if c = o then n else c) = id c := by
    intro c hc
    simp [h c hc]
  rw [List.map_congr_left h2, List.map_id]

lemma sub_colon_space_no_colon : ∀ (l : List Char), ':' ∉ l →
    sub_colon_space l = l := by
  intro l
  induction l using sub_colon_space.induct with
  | case1 a b rest2 hg ih =>
    intro h
    exact absurd (by simp : ':' ∈ a :: ':' :: ' ' :: b :: rest2) h
  | case2 a b rest2 hg ih =>
    intro h
    exact absurd (by simp : ':' ∈ a :: ':' :: ' ' :: b :: rest2) h
  | case3 a rest hne ih =>
    intro h
    have h2 : ':' ∉ rest := fun hc => h (List.mem_cons_of_mem a hc)
    rw [sub_colon_space.eq_2 a rest hne, ih h2]
  | case4 =>
    intro _
    rfl

lemma mem_sub_colon_space {c : Char} :
    ∀ (l : List Char), c ∈ sub_colon_space l → c ∈ l ∨ c = ' ' ∨ c = '-' := by
  intro l
  induction l using sub_colon_space.induct with
  | case1 a b rest2 hg ih =>
    intro hc
    rw [sub_colon_space.eq_1, if_pos hg] at hc
    simp only [List.mem_cons] at hc
    rcases hc with rfl | rfl | rfl | rfl | rfl | hc
    · exact Or.inl (by simp)
    · exact Or.inr (Or.inl rfl)
    · exact Or.inr (Or.inr rfl)
    · exact Or.inr (Or.inl rfl)
    · exact Or.inl (by simp)
    · rcases ih hc with h3 | h3
      · exact Or.inl (by simp only [List.mem_cons]; tauto)
      · exact Or.inr h3
  | case2 a b rest2 hg ih =>
    intro hc
    rw [sub_colon_space.eq_1, if_neg hg] at hc
    simp only [List.mem_cons] at hc
    rcases hc with rfl | rfl | rfl | hc
    · exact Or.inl (by simp)
    · exact Or.inl (by simp)
    · exact Or.inl (by simp)
    · rcases ih hc with h3 | h3
      · simp only [List.mem_cons] at h3
        exact Or.inl (by simp only [List.mem_cons]; tauto)
      · exact Or.inr h3
  | case3 a rest hne ih =>
    intro hc
    rw [sub_colon_space.eq_2 a rest hne] at hc
    rcases List.mem_cons.mp hc with rfl | hc2
    · exact Or.inl (by simp)
    · rcases ih hc2 with h3 | h3
      · exact Or.inl (List.mem_cons_of_mem a h3)
      · exact Or.inr h3
  | case4 =>
    intro hc
    cases hc

/-- C8: `Course._clean_filename` is idempotent — cleaning an already-cleaned
string returns it unchanged, on every non-erroring flag combination — and its
result never exceeds 255 characters (`types.py` lines 227-265). -/
theorem clean_filename_idempotent_and_bounded
    (s r : List Char) (u d : Bool)
    (h : clean_filename s u d = .ok r) :
    clean_filename r u d = .ok r ∧ r.length ≤ 255 := by
  by_cases hud : (u && d) = true
  · rw [clean_filename, if_pos hud] at h
    cases h
  · rw [clean_filename, if_neg hud] at h
    cases u with
    | true =>
      replace h : Except.ok ((pyReplace (sub_invalid s) ':' '_').take 255) =
          Except.ok r := h
      have hr : r = (pyReplace (sub_invalid s) ':' '_').take 255 :=
        (Except.ok.inj h).symm
      have hNoInv : ∀ c ∈ r, isInvalidFilenameChar c = false := by
        intro c hc
        have hcx : c ∈ pyReplace (sub_invalid s) ':' '_' :=
          List.take_subset _ _ (hr ▸ hc)
        rcases mem_pyReplace _ _ _ c hcx with rfl | ⟨hmem, _⟩
        · decide
        · exact sub_invalid_no_invalid s c hmem
      have hNoColon : ∀ c ∈ r, c ≠ ':' := by
        intro c hc
        have hcx : c ∈ pyReplace (sub_invalid s) ':' '_' :=
          List.take_subset _ _ (hr ▸ hc)
        rcases mem_pyReplace _ _ _ c hcx with rfl | ⟨_, hne⟩
        · decide
        · exact hne
      have hlen : r.length ≤ 255 := by
        rw [hr]
        exact List.length_take_le _ _
      refine ⟨?_, hlen⟩
      rw [clean_filename, if_neg hud]
      show Except.ok ((pyReplace (sub_invalid r) ':' '_').take 255) = Except.ok r
      rw [sub_invalid_id r hNoInv, pyReplace_id r ':' '_' hNoColon,
        List.take_of_length_le hlen]
    | false =>
      replace h : Except.ok
          ((pyReplace (sub_colon_space (sub_invalid s)) ':' '-').take 255) =
          Except.ok r := h
      have hr : r = (pyReplace (sub_colon_space (sub_invalid s)) ':' '-').take 255 :=
        (Except.ok.inj h).symm
      have hNoColon : ∀ c ∈ r, c ≠ ':' := by
        intro c hc
        have hcx : c ∈ pyReplace (sub_colon_space (sub_invalid s)) ':' '-' :=
          List.take_subset _ _ (hr ▸ hc)
        rcases mem_pyReplace _ _ _ c hcx with rfl | ⟨_, hne⟩
        · decide
        · exact hne
      have hNoInv : ∀ c ∈ r, isInvalidFilenameChar c = false := by
        intro c hc
        have hcx : c ∈ pyReplace (sub_colon_space (sub_invalid s)) ':' '-' :=
          List.take_subset _ _ (hr ▸ hc)
        rcases mem_pyReplace _ _ _ c hcx with rfl | ⟨hmem, _⟩
        · decide
        · rcases mem_sub_colon_space _ hmem with h3 | rfl | rfl
          · exact sub_invalid_no_invalid s c h3
          · decide
          · decide
      have hNotMem : ':' ∉ r := fun hc => hNoColon ':' hc rfl
      have hlen : r.length ≤ 255 := by
        rw [hr]
        exact List.length_take_le _ _
      refine ⟨?_, hlen⟩
      rw [clean_filename, if_neg hud]
      show Except.ok
          ((pyReplace (sub_colon_space (sub_invalid r)) ':' '-').take 255) =
          Except.ok r
      rw [sub_invalid_id r hNoInv, sub_colon_space_no_colon r hNotMem,
        pyReplace_id r ':' '-' hNoColon, List.take_of_length_le hlen]

theorem clean_filename_idempotent_and_bounded_witness :
    clean_filename "Lecture 1 - The_Big_Idea".data false false =
      .ok "Lecture 1 - The_Big_Idea".data ∧
    ("Lecture 1 - The_Big_Idea".data).length ≤ 255 :=
  clean_filename_idempotent_and_bounded "Lecture 1: The/Big%Idea".data
    "Lecture 1 - The_Big_Idea".data false false (by decide)

/-- C10 (counterexample): the claim says `guidebook_url` is always a
non-empty string after `Course` construction, so the falsiness branch of
`download_guidebook` is unreachable.  It is false on the code: a guidebook
anchor whose text contains "Guidebook" but whose `href` attribute is the
empty string gives `guidebook_url = str("") = ""` (`types.py` lines 99-104),
which is empty, and `download_guidebook` then takes exactly the falsiness
branch (`download.py` lines 260-264). -/
theorem empty_href_reaches_falsiness_branch :
    course_guidebook_url (some ⟨"Guidebook", some ""⟩) = "" ∧
    (course_guidebook_url (some ⟨"Guidebook", some ""⟩)).length = 0 ∧
    (download_guidebook (course_guidebook_url (some ⟨"Guidebook", some ""⟩)) false).1 =
      GbStep.skippedNoUrl := by
  decide

/-- C10 (amended): when the guidebook anchor is absent, lacks the "Guidebook"
text, or has no `href` attribute, `guidebook_url` is the literal non-empty
string `"None"` (never Python `None`), the falsiness branch of
`download_guidebook` is not taken for it, and the absent guidebook is instead
detected by the URL-prefix validation, which returns without any network
activity.  Only an anchor carrying an explicitly empty `href` string yields
an empty `guidebook_url` and reaches the falsiness branch. -/
theorem absent_guidebook_detected_by_prefix_validation
    (tag : Option GuidebookTag)
    (h : tag = none ∨ ∃ t, tag = some t ∧
          (containsGuidebook t.text = false ∨ t.href = none)) :
    course_guidebook_url tag = "None" ∧
    (course_guidebook_url tag).length ≠ 0 ∧
    (download_guidebook (course_guidebook_url tag) false).1 =
      GbStep.skippedBadPrefix ∧
    (download_guidebook (course_guidebook_url tag) false).2.all
      (fun e => !isNetworkEffect e) = true := by
  have hu : course_guidebook_url tag = "None" := by
    rcases h with rfl | ⟨t, rfl, h2 | h2⟩
    · rfl
    · simp [course_guidebook_url, h2]
    · rcases t with ⟨tx, hf⟩
      replace h2 : hf = none := h2
      subst h2
      by_cases hc : containsGuidebook tx = true <;>
        simp [course_guidebook_url, pyStrOfOptionStr, hc]
  rw [hu]
  refine ⟨rfl, by decide, by decide, by decide⟩

theorem absent_guidebook_detected_by_prefix_validation_witness :
    course_guidebook_url none = "None" ∧
    (course_guidebook_url none).length ≠ 0 ∧
    (download_guidebook (course_guidebook_url none) false).1 =
      GbStep.skippedBadPrefix ∧
    (download_guidebook (course_guidebook_url none) false).2.all
      (fun e => !isNetworkEffect e) = true :=
  absent_guidebook_detected_by_prefix_validation none (Or.inl rfl)

end TgcDl
